import Mathlib

/-!
Verification of the quiz session core of `streamlit_app.py` (organic
nomenclature practice app).

Strings are modelled as `List Char` (Python `str` restricted to the
Unicode scalar values Lean's `Char` supports; the catalog and all
answer strings are ASCII).  Python string methods used by the app
(`lower`, `strip`, `replace`, `split`, `startswith`, `endswith`,
`join`) are given direct executable models below.
-/

namespace Quiz

/-- A Python string, as a list of characters. -/
abbrev PyStr := List Char

/-- The apostrophe character (several feedback strings of the app
contain it). -/
def sq : Char := Char.ofNat 39

/-- Whitespace in the sense of Python `str.strip` / regex `\s`,
restricted to the ASCII range: space, tab, newline, vertical tab,
form feed, carriage return. -/
def isPySpace (c : Char) : Bool :=
  decide (c.toNat = 32 ∨ c.toNat = 9 ∨ c.toNat = 10 ∨ c.toNat = 11 ∨
    c.toNat = 12 ∨ c.toNat = 13)

/-- Python `str.lower`, per character (ASCII range, which covers the
whole question bank and the markers used by the app). -/
def pyLowerChar (c : Char) : Char :=
  if 65 ≤ c.toNat ∧ c.toNat ≤ 90 then Char.ofNat (c.toNat + 32) else c

/-- Python `str.lower` on a whole string. -/
def pyLower (s : PyStr) : PyStr := s.map pyLowerChar

/-- Python `str.strip()`: remove leading and trailing whitespace. -/
def pyStrip (s : PyStr) : PyStr :=
  ((s.dropWhile isPySpace).reverse.dropWhile isPySpace).reverse

/-- `streamlit_app.py` line 429 (and 430, 431, 458):
`x.lower().strip().replace(" ", "").replace("-", "")`.
The name normalization applied to the student answer and to every
candidate name. -/
def pyNormalize (s : PyStr) : PyStr :=
  ((pyStrip (pyLower s)).filter (fun c => c != ' ')).filter (fun c => c != '-')

/-- `streamlit_app.py` lines 429-434: the correctness decision of
`handle_answer_submission_st`.  The student answer is correct iff its
normalized form equals the normalized canonical name or occurs among
the normalized alternative names. -/
def evalCorrect (ans correct : PyStr) (alts : List PyStr) : Bool :=
  pyNormalize ans == pyNormalize correct ||
    (alts.map pyNormalize).contains (pyNormalize ans)

-- Basic facts about the character model.

theorem toNat_charOfNat {n : Nat} (h : n < 55296) : (Char.ofNat n).toNat = n := by
  have hv : Nat.isValidChar n := Or.inl h
  rw [Char.ofNat, dif_pos hv]
  rfl

theorem pyLowerChar_toNat_of_upper {c : Char} (h : 65 ≤ c.toNat ∧ c.toNat ≤ 90) :
    (pyLowerChar c).toNat = c.toNat + 32 := by
  have hlt : c.toNat + 32 < 55296 := by omega
  rw [pyLowerChar, if_pos h]
  exact toNat_charOfNat hlt

theorem pyLowerChar_eq_of_not_upper {c : Char} (h : ¬ (65 ≤ c.toNat ∧ c.toNat ≤ 90)) :
    pyLowerChar c = c := by
  rw [pyLowerChar, if_neg h]

theorem pyLowerChar_idem (c : Char) : pyLowerChar (pyLowerChar c) = pyLowerChar c := by
  by_cases h : 65 ≤ c.toNat ∧ c.toNat ≤ 90
  · have ht := pyLowerChar_toNat_of_upper h
    exact pyLowerChar_eq_of_not_upper (by omega)
  · rw [pyLowerChar_eq_of_not_upper h, pyLowerChar_eq_of_not_upper h]

theorem isPySpace_pyLowerChar (c : Char) : isPySpace (pyLowerChar c) = isPySpace c := by
  by_cases h : 65 ≤ c.toNat ∧ c.toNat ≤ 90
  · have ht := pyLowerChar_toNat_of_upper h
    simp only [isPySpace, decide_eq_decide, ht]
    omega
  · rw [pyLowerChar_eq_of_not_upper h]

theorem mem_pyStrip {c : Char} {s : PyStr} (h : c ∈ pyStrip s) : c ∈ s := by
  unfold pyStrip at h
  rw [List.mem_reverse] at h
  have h1 := (List.dropWhile_sublist isPySpace).mem h
  rw [List.mem_reverse] at h1
  exact (List.dropWhile_sublist isPySpace).mem h1

theorem mem_pyNormalize {c : Char} {s : PyStr} (h : c ∈ pyNormalize s) :
    (∃ d ∈ s, c = pyLowerChar d) ∧ c ≠ ' ' ∧ c ≠ '-' := by
  unfold pyNormalize at h
  have h1 := List.mem_filter.mp h
  have h2 := List.mem_filter.mp h1.1
  have h3 := mem_pyStrip h2.1
  rw [pyLower, List.mem_map] at h3
  refine ⟨?_, ?_, ?_⟩
  · obtain ⟨d, hd, hcd⟩ := h3
    exact ⟨d, hd, hcd.symm⟩
  · simpa [bne_iff_ne] using h2.2
  · simpa [bne_iff_ne] using h1.2

theorem pyNormalize_chars_fixed {s : PyStr}
    (hs : ∀ c ∈ s, isPySpace c = true → c = ' ') :
    ∀ c ∈ pyNormalize s, isPySpace c = false ∧ pyLowerChar c = c ∧
      c ≠ ' ' ∧ c ≠ '-' := by
  intro c hc
  obtain ⟨⟨d, hd, hcd⟩, hcsp, hcdash⟩ := mem_pyNormalize hc
  have hspace : isPySpace c = isPySpace d := by rw [hcd, isPySpace_pyLowerChar]
  have hfix : pyLowerChar c = c := by rw [hcd, pyLowerChar_idem]
  refine ⟨?_, hfix, hcsp, hcdash⟩
  by_cases hdsp : isPySpace d = true
  · exfalso
    have hd32 : d = ' ' := hs d hd hdsp
    apply hcsp
    rw [hcd, hd32]
    exact pyLowerChar_eq_of_not_upper (by decide)
  · rw [hspace]
    exact Bool.eq_false_iff.mpr hdsp

theorem dropWhile_eq_self_of_none {p : Char → Bool} {l : PyStr}
    (h : ∀ c ∈ l, p c = false) : l.dropWhile p = l := by
  cases l with
  | nil => rfl
  | cons a t =>
    rw [List.dropWhile_cons, if_neg]
    simp [h a (List.mem_cons_self a t)]

theorem pyStrip_eq_self_of_no_space {l : PyStr}
    (h : ∀ c ∈ l, isPySpace c = false) : pyStrip l = l := by
  unfold pyStrip
  rw [dropWhile_eq_self_of_none h]
  rw [dropWhile_eq_self_of_none (by intro c hc; exact h c (List.mem_reverse.mp hc))]
  exact List.reverse_reverse l

/-- C8 counterexample: the claim that the normalization transform is
idempotent for every string fails on the concrete input consisting of
a hyphen, a tab, and the letter a.  One pass removes the hyphen and
exposes the tab at the front of the string; the second pass then
strips that tab, so the two results differ. -/
theorem pyNormalize_not_idempotent_cx :
    pyNormalize (pyNormalize ("-\ta").toList) ≠ pyNormalize ("-\ta").toList := by
  decide

/-- C8 (amended): the name normalization (lowercase, strip
leading/trailing whitespace, remove internal spaces and hyphens) is
idempotent on every string whose whitespace characters are all plain
spaces: applying it twice yields the same result as applying it once.
(The unrestricted claim fails when removing a hyphen exposes an
internal non-space whitespace character at an end of the string, as in
the counterexample.) -/
theorem pyNormalize_idem_of_plain_spaces (s : PyStr)
    (hs : ∀ c ∈ s, isPySpace c = true → c = ' ') :
    pyNormalize (pyNormalize s) = pyNormalize s := by
  have key := pyNormalize_chars_fixed hs
  have hlower : pyLower (pyNormalize s) = pyNormalize s := by
    unfold pyLower
    rw [List.map_congr_left (fun c hc => (key c hc).2.1)]
    exact List.map_id _
  have hstrip : pyStrip (pyNormalize s) = pyNormalize s :=
    pyStrip_eq_self_of_no_space (fun c hc => (key c hc).1)
  have hsp : (pyNormalize s).filter (fun c => c != ' ') = pyNormalize s :=
    List.filter_eq_self.mpr (fun c hc => bne_iff_ne.mpr (key c hc).2.2.1)
  have hdash : (pyNormalize s).filter (fun c => c != '-') = pyNormalize s :=
    List.filter_eq_self.mpr (fun c hc => bne_iff_ne.mpr (key c hc).2.2.2)
  conv_lhs => rw [pyNormalize, hlower, hstrip, hsp, hdash]

/-- C8 witness: the amended idempotence theorem applied at the
concrete answer string "2-Methyl propan-1-OL". -/
theorem pyNormalize_idem_of_plain_spaces_witness :
    pyNormalize (pyNormalize ("2-Methyl propan-1-OL").toList) =
      pyNormalize ("2-Methyl propan-1-OL").toList :=
  pyNormalize_idem_of_plain_spaces _ (by decide)

/-- C1: the answer evaluation of `handle_answer_submission_st` returns
correct exactly when the normalized student answer equals the
normalized canonical name or equals the normalized form of some entry
of the problem's alternative names, the normalization (`pyNormalize`)
being: lowercase, strip leading/trailing whitespace, remove all space
and hyphen characters, leaving every other character unchanged. -/
theorem evalCorrect_iff_normalized_match (ans correct : PyStr) (alts : List PyStr) :
    evalCorrect ans correct alts = true ↔
      (pyNormalize ans = pyNormalize correct ∨
        ∃ a ∈ alts, pyNormalize ans = pyNormalize a) := by
  unfold evalCorrect
  rw [Bool.or_eq_true, beq_iff_eq, List.contains_eq_any_beq, List.any_eq_true]
  constructor
  · rintro (h | ⟨x, hx, hbeq⟩)
    · exact Or.inl h
    · rw [List.mem_map] at hx
      obtain ⟨a, ha, rfl⟩ := hx
      exact Or.inr ⟨a, ha, beq_iff_eq.mp hbeq⟩
  · rintro (h | ⟨a, ha, heq⟩)
    · exact Or.inl h
    · exact Or.inr ⟨pyNormalize a, List.mem_map.mpr ⟨a, ha, rfl⟩, beq_iff_eq.mpr heq⟩

-- The data model of the quiz session state machine.

/-- One entry of a problem's `common_errors` list: a known-incorrect
name together with its curated explanation. -/
structure CommonError where
  incorrect_name : PyStr
  explanation : PyStr
deriving DecidableEq

/-- The `alternative_names` field of a problem record.  In the source
the field may be missing from the dict, be a single string, or be a
list of strings (`load_current_problem_details`, lines 559-560). -/
inductive AltField where
  | absent
  | single (s : PyStr)
  | many (l : List PyStr)
deriving DecidableEq

/-- One record of the `practice_problems` catalog. -/
structure Problem where
  smiles : PyStr
  name : PyStr
  condensed : PyStr
  category : PyStr
  difficulty : PyStr
  alternative_names : AltField
  common_errors : Option (List CommonError)
deriving DecidableEq

def defaultProblem : Problem :=
  { smiles := []
    name := []
    condensed := []
    category := []
    difficulty := []
    alternative_names := AltField.absent
    common_errors := none }

/-- The `app_stage` session value: `setup`, `quiz` or `results`. -/
inductive Stage where
  | setup
  | quiz
  | results
deriving DecidableEq

/-- The Streamlit session state of the app
(`initialize_session_state`, lines 272-298). -/
structure SessionState where
  app_stage : Stage
  selected_categories : List PyStr
  selected_difficulties : List PyStr
  num_problems_requested : Nat
  quiz_problems_list : List Problem
  problem_index : Nat
  total_problems_in_quiz : Nat
  current_score : Nat
  current_mol_smiles : Option PyStr
  current_correct_name : PyStr
  current_alternative_names : List PyStr
  student_answer : PyStr
  is_current_problem_answered : Bool
  is_current_problem_correct : Bool
  feedback_message : PyStr
  ai_explanation : PyStr
  last_selected_formula_type : PyStr
  disable_answer_input : Bool
  disable_formula_dropdown : Bool
deriving DecidableEq

/-- The session defaults of `initialize_session_state`. -/
def initialize_session_state : SessionState :=
  { app_stage := Stage.setup
    selected_categories := []
    selected_difficulties := []
    num_problems_requested := 5
    quiz_problems_list := []
    problem_index := 0
    total_problems_in_quiz := 0
    current_score := 0
    current_mol_smiles := none
    current_correct_name := []
    current_alternative_names := []
    student_answer := []
    is_current_problem_answered := false
    is_current_problem_correct := false
    feedback_message := []
    ai_explanation := []
    last_selected_formula_type := ("Skeletal").toList
    disable_answer_input := false
    disable_formula_dropdown := false }

/-- The external collaborators of the session core: the molecule
parser (`Chem.MolFromSmiles` succeeding or not), the availability flag
of the explanation service, and the explanation gateway
`get_ai_nomenclature_explanation_st(student_answer, correct_name,
smiles)` (whose output already includes the post-processing). -/
structure Env where
  molParses : PyStr → Bool
  genai_service_available : Bool
  gateway : PyStr → PyStr → PyStr → PyStr

-- Feedback strings built by the app (apostrophes written via `sq`).

def joinWith (sep : PyStr) : List PyStr → PyStr
  | [] => []
  | [p] => p
  | p :: ps => p ++ sep ++ joinWith sep ps

def correctFeedback (name : PyStr) : PyStr :=
  ("<p style=").toList ++ [sq] ++
    ("color:green; font-weight:bold; font-size:1.1em;").toList ++ [sq] ++
    (">Correct! The name is ").toList ++ name ++ (".</p>").toList

def incorrectHeader : PyStr :=
  ("<p style=").toList ++ [sq] ++
    ("color:red; font-weight:bold; font-size:1.1em;").toList ++ [sq] ++
    (">Incorrect.</p>").toList

def yourAnswerPart (sa : PyStr) : PyStr :=
  ("Your answer: <code>").toList ++ sa ++ ("</code>").toList

def correctAnswersPart (cn : PyStr) (alts : List PyStr) : PyStr :=
  ("Correct answer(s): <strong><code>").toList ++ cn ++
    ("</code></strong>").toList ++
    (if alts.isEmpty then [] else
      (" or <strong><code>").toList ++ joinWith (", ").toList alts ++
        ("</code></strong>").toList)

def customExplanationPart (ex : PyStr) : PyStr :=
  ("<hr><b>Explanation for your answer:</b><br>").toList ++ ex

def loadFailMsg : PyStr :=
  ("<p style=").toList ++ [sq] ++ ("color:orange; font-weight:bold;").toList ++
    [sq] ++ (">Problem Loading Error: This problem could not be loaded and " ++
      "will be skipped. Please click ").toList ++ [sq] ++
    ("Next Problem").toList ++ [sq] ++ (".</p>").toList

/-- `load_current_problem_details`, line 560: a single-string
`alternative_names` field is wrapped in a one-element list, a missing
field defaults to the empty list. -/
def getAltNames : AltField → List PyStr
  | AltField.absent => []
  | AltField.single s => [s]
  | AltField.many l => l

/-- Lines 456-462: first `common_errors` entry whose normalized
incorrect name equals the normalized student answer, if any
(`None` when the problem has no `common_errors` key). -/
def findCommonError (ce : Option (List CommonError)) (psa : PyStr) : Option PyStr :=
  match ce with
  | none => none
  | some entries =>
    match entries.find? (fun e => pyNormalize e.incorrect_name == psa) with
    | some e => some e.explanation
    | none => none

/-- `load_current_problem_details` (lines 548-573).  The first guard
of the source (session keys missing entirely) cannot fire in this
model, where every session field always exists.  Python indexes
`quiz_problems_list[problem_index]` directly; the `none` case of the
lookup is unreachable whenever `problem_index <
total_problems_in_quiz = length quiz_problems_list`. -/
def load_current_problem_details (env : Env) (s : SessionState) : SessionState :=
  if s.problem_index < s.total_problems_in_quiz then
    match s.quiz_problems_list[s.problem_index]? with
    | some spec =>
      let s1 := { s with
        current_mol_smiles := some spec.smiles
        current_correct_name := spec.name
        current_alternative_names := getAltNames spec.alternative_names }
      if env.molParses spec.smiles then s1
      else { s1 with
        is_current_problem_answered := true
        disable_answer_input := true
        disable_formula_dropdown := true
        feedback_message := loadFailMsg
        current_mol_smiles := none }
    | none => s
  else { s with current_mol_smiles := none }

/-- `handle_answer_submission_st` (lines 421-471).  Returns the new
session state together with a flag recording whether the external
explanation gateway was invoked for this submission. -/
def handle_answer_submission_st (env : Env) (s : SessionState) : SessionState × Bool :=
  if s.is_current_problem_answered then (s, false)
  else
    let student_answer := s.student_answer
    let correct_name := s.current_correct_name
    let alternative_names := s.current_alternative_names
    let is_correct := evalCorrect student_answer correct_name alternative_names
    let s1 := { s with
      is_current_problem_answered := true
      disable_answer_input := true
      disable_formula_dropdown := true }
    if is_correct then
      ({ s1 with
          is_current_problem_correct := true
          current_score := s1.current_score + 1
          feedback_message := correctFeedback correct_name }, false)
    else
      let s2 := { s1 with is_current_problem_correct := false }
      let spec := s2.quiz_problems_list.getD s2.problem_index defaultProblem
      let customExpl := findCommonError spec.common_errors (pyNormalize student_answer)
      let parts := [incorrectHeader, yourAnswerPart student_answer,
                    correctAnswersPart correct_name alternative_names] ++
                   (match customExpl with
                    | some ex => [customExplanationPart ex]
                    | none => [])
      let s3 := { s2 with feedback_message := joinWith ("<br>").toList parts }
      if customExpl.isNone && env.genai_service_available then
        ({ s3 with ai_explanation :=
             env.gateway student_answer correct_name (s3.current_mol_smiles.getD []) },
         true)
      else
        ({ s3 with ai_explanation := [] }, false)

/-- `go_to_next_problem_callback` (lines 473-490). -/
def go_to_next_problem_callback (env : Env) (s : SessionState) : SessionState :=
  let s1 := { s with
    problem_index := s.problem_index + 1
    student_answer := []
    is_current_problem_answered := false
    is_current_problem_correct := false
    feedback_message := []
    ai_explanation := []
    disable_answer_input := false
    disable_formula_dropdown := false }
  if s1.problem_index ≥ s1.total_problems_in_quiz then
    { s1 with app_stage := Stage.results }
  else
    load_current_problem_details env s1

/-- Model of `random.sample(pop, k)`: repeatedly remove the element at
an oracle-determined position among the remaining ones — sampling
without replacement, the oracle supplying the randomness. -/
def randomSample {α : Type} : List α → Nat → List Nat → List α
  | _, 0, _ => []
  | [], _ + 1, _ => []
  | p :: ps, k + 1, oracle =>
    let i := oracle.headD 0 % (p :: ps).length
    (p :: ps).getD i p :: randomSample ((p :: ps).eraseIdx i) k (oracle.drop 1)

/-- The filtering of `setup_new_quiz_st` (lines 493-503): the category
filter applies only when the selected-category list is non-empty, then
the difficulty filter applies only when the selected-difficulty list
is non-empty. -/
def filteredProblems (catalog : List Problem) (cats diffs : List PyStr) : List Problem :=
  let f1 := if !cats.isEmpty then
              catalog.filter (fun p => cats.contains p.category)
            else catalog
  if !diffs.isEmpty then f1.filter (fun p => diffs.contains p.difficulty) else f1

/-- The error outcomes of `setup_new_quiz_st`: lines 512 (no match for
an explicit filter selection), 519 (empty catalog safeguard), and 527
(zero problems after clamping). -/
inductive SetupError where
  | NoMatchingProblems
  | NoProblemsAvailable
  | NotEnoughProblems
deriving DecidableEq

/-- The tail of `setup_new_quiz_st` (lines 518-546) run on an already
determined eligible list: safeguard empty check, clamping of the
requested count, sampling, state reset, and loading of the first
problem. -/
def setupFrom (env : Env) (oracle : List Nat) (s : SessionState)
    (filtered : List Problem) : Except SetupError SessionState :=
  if filtered.isEmpty then Except.error SetupError.NoProblemsAvailable
  else
    let num_req := s.num_problems_requested
    let actual_num_problems := min num_req filtered.length
    if actual_num_problems = 0 then Except.error SetupError.NotEnoughProblems
    else
      let s1 := { s with
        quiz_problems_list := randomSample filtered actual_num_problems oracle
        total_problems_in_quiz := actual_num_problems
        problem_index := 0
        current_score := 0
        app_stage := Stage.quiz
        student_answer := []
        is_current_problem_answered := false
        is_current_problem_correct := false
        feedback_message := []
        ai_explanation := []
        disable_answer_input := false
        disable_formula_dropdown := false }
      Except.ok (load_current_problem_details env s1)

/-- `setup_new_quiz_st` (lines 492-546).  The module-level
`practice_problems` list of the source is the `catalog` argument.  An
error value models the early `return` paths, on which the session
state is left untouched (see `runSetup`). -/
def setup_new_quiz_st (env : Env) (catalog : List Problem) (oracle : List Nat)
    (s : SessionState) : Except SetupError SessionState :=
  let filtered := filteredProblems catalog s.selected_categories s.selected_difficulties
  if filtered.isEmpty then
    if !s.selected_categories.isEmpty || !s.selected_difficulties.isEmpty then
      Except.error SetupError.NoMatchingProblems
    else
      setupFrom env oracle s catalog
  else
    setupFrom env oracle s filtered

/-- The observable effect of pressing "Start Practice": on an error
path `setup_new_quiz_st` returns early and the session state is
unchanged. -/
def runSetup (env : Env) (catalog : List Problem) (oracle : List Nat)
    (s : SessionState) : SessionState :=
  match setup_new_quiz_st env catalog oracle s with
  | Except.ok s1 => s1
  | Except.error _ => s

/-- A user interaction during the quiz: typing an answer and pressing
"Submit Answer", or pressing "Next Problem". -/
inductive Op where
  | submit (answer : PyStr)
  | advance
deriving DecidableEq

/-- One user interaction against the rendered page.  The quiz page
(and hence both buttons) exists only in the `quiz` stage; the answer
text field is editable only when not disabled and a molecule is
displayed (lines 693-697); the submit button is enabled only when the
current problem is unanswered and a molecule is displayed (lines
699-703); the next-problem button is enabled only when the current
problem is answered (lines 714-721). -/
def step (env : Env) (s : SessionState) : Op → SessionState
  | Op.submit a =>
    if s.app_stage = Stage.quiz then
      let s1 := if s.disable_answer_input = false ∧ s.current_mol_smiles.isSome
                then { s with student_answer := a } else s
      if s1.is_current_problem_answered = false ∧ s1.current_mol_smiles.isSome
      then (handle_answer_submission_st env s1).1
      else s1
    else s
  | Op.advance =>
    if s.app_stage = Stage.quiz ∧ s.is_current_problem_answered = true then
      go_to_next_problem_callback env s
    else s

/-- A whole interaction sequence. -/
def runOps (env : Env) (s : SessionState) (ops : List Op) : SessionState :=
  ops.foldl (step env) s

-- `extract_error_steps_and_comments` (lines 343-366): post-processing
-- of the explanation text returned by the AI service.

/-- `a.startswith(b)` as used on lines 352-357: does the second list
start with the first one? -/
def hasPre : PyStr → PyStr → Bool
  | [], _ => true
  | _ :: _, [] => false
  | c :: cs, d :: ds => c == d && hasPre cs ds

/-- `a.endswith(b)`: does the second list end with the first one? -/
def hasSuf (suf l : PyStr) : Bool := hasPre suf.reverse l.reverse

/-- Line 350: `re.sub(r'^[*-]\s*', '', line)` — remove one leading
bullet marker together with the whitespace following it. -/
def bulletStrip (l : PyStr) : PyStr :=
  match l with
  | c :: cs => if c = '*' ∨ c = '-' then cs.dropWhile isPySpace else c :: cs
  | [] => []

/-- Lines 349-350: `line.strip()` followed by the bullet removal. -/
def processLine (l : PyStr) : PyStr := bulletStrip (pyStrip l)

def stepTag : PyStr := ("Step ").toList

def commentTag : PyStr := ("Comment:").toList

/-- Line 352: a processed line both starting with "Step " and ending
with the incorrect marker. -/
def isErrStep (p : PyStr) : Bool :=
  hasPre stepTag p && hasSuf ("❌").toList p

/-- The retention loop of `extract_error_steps_and_comments` (lines
346-360), carrying the `last_step_was_error` flag. -/
def extractAux : List PyStr → Bool → List PyStr
  | [], _ => []
  | line :: rest, flag =>
    let p := processLine line
    if isErrStep p then p :: extractAux rest true
    else if hasPre stepTag p then extractAux rest false
    else if hasPre commentTag p && flag then p :: extractAux rest flag
    else extractAux rest flag

/-- The `result_lines` list computed by
`extract_error_steps_and_comments` on a whole text block (line 344
splits the stripped text on newlines). -/
def resultLines (t : PyStr) : List PyStr :=
  extractAux ((pyStrip t).splitOn '\n') false

/-- Python `str.replace` for a single-character pattern. -/
def replaceMarker (c : Char) (rep : PyStr) (l : PyStr) : PyStr :=
  l.flatMap (fun d => if d = c then rep else [d])

/-- Line 365: one `<li>` item, with the markers expanded. -/
def liItem (r : PyStr) : PyStr :=
  ("<li>").toList ++
    replaceMarker '✅' (("✅ (Correct)").toList)
      (replaceMarker '❌' (("❌ (Incorrect)").toList) r) ++
    ("</li>").toList

/-- `extract_error_steps_and_comments` (lines 343-366): the retained
lines wrapped as an HTML list, or the empty string when nothing was
retained. -/
def extract_error_steps_and_comments (t : PyStr) : PyStr :=
  let result_lines := resultLines t
  if result_lines.isEmpty then []
  else ("<ul>").toList ++ (result_lines.map liItem).flatten ++ ("</ul>").toList

-- Specification-side retention rule (for the amended C4 claim).  The
-- three definitions below follow the words of the amended claim, not
-- the loop of the source; the claim theorem compares the source's
-- extraction against them.

/-- Spec wording: whether the most recent step line among the already
seen processed lines `prev` is an incorrect-step line (`false` when no
step line has occurred yet). -/
def lastStepWasError (prev : List PyStr) : Bool :=
  match prev.reverse.find? (fun p => hasPre stepTag p) with
  | some p => isErrStep p
  | none => false

/-- Spec wording: a processed line is kept exactly when it is an
incorrect-step line, or it is a comment line and the most recent
preceding step line was an incorrect step. -/
def keepPerSpec (prev : List PyStr) (p : PyStr) : Bool :=
  isErrStep p || (hasPre commentTag p && lastStepWasError prev)

/-- Spec wording: the retained lines, in original order — each
processed line kept or dropped according to `keepPerSpec` of the lines
before it. -/
def retainedPerSpec : List PyStr → List PyStr → List PyStr
  | _, [] => []
  | prev, p :: ps =>
    if keepPerSpec prev p then p :: retainedPerSpec (prev ++ [p]) ps
    else retainedPerSpec (prev ++ [p]) ps

-- Structure of the retained lines of the explanation post-processing.

theorem extractAux_cons (line : PyStr) (rest : List PyStr) (flag : Bool) :
    extractAux (line :: rest) flag =
      if isErrStep (processLine line) then
        processLine line :: extractAux rest true
      else if hasPre stepTag (processLine line) then extractAux rest false
      else if hasPre commentTag (processLine line) && flag then
        processLine line :: extractAux rest flag
      else extractAux rest flag := rfl

theorem extractAux_mem_shape (ls : List PyStr) (flag : Bool) :
    ∀ r ∈ extractAux ls flag,
      isErrStep r = true ∨ hasPre commentTag r = true := by
  induction ls generalizing flag with
  | nil => intro r hr; simp [extractAux] at hr
  | cons line rest ih =>
    intro r hr
    rw [extractAux_cons] at hr
    by_cases h1 : isErrStep (processLine line) = true
    · rw [if_pos h1] at hr
      rcases List.mem_cons.mp hr with h | h
      · exact Or.inl (h ▸ h1)
      · exact ih true r h
    · rw [if_neg h1] at hr
      by_cases h2 : hasPre stepTag (processLine line) = true
      · rw [if_pos h2] at hr
        exact ih false r hr
      · rw [if_neg h2] at hr
        by_cases h3 : (hasPre commentTag (processLine line) && flag) = true
        · rw [if_pos h3] at hr
          rcases List.mem_cons.mp hr with h | h
          · exact Or.inr (h ▸ (Bool.and_eq_true _ _ ▸ h3).1)
          · exact ih flag r h
        · rw [if_neg h3] at hr
          exact ih flag r hr

theorem extractAux_head_err (ls : List PyStr) :
    ∀ r, (extractAux ls false).head? = some r → isErrStep r = true := by
  induction ls with
  | nil => intro r hr; simp [extractAux] at hr
  | cons line rest ih =>
    intro r hr
    rw [extractAux_cons] at hr
    by_cases h1 : isErrStep (processLine line) = true
    · rw [if_pos h1] at hr
      rw [List.head?_cons] at hr
      exact (Option.some.injEq _ _ ▸ hr) ▸ h1
    · rw [if_neg h1] at hr
      by_cases h2 : hasPre stepTag (processLine line) = true
      · rw [if_pos h2] at hr
        exact ih r hr
      · rw [if_neg h2, Bool.and_false, if_neg (by simp)] at hr
        exact ih r hr

theorem extractAux_sublist (ls : List PyStr) (flag : Bool) :
    List.Sublist (extractAux ls flag) (ls.map processLine) := by
  induction ls generalizing flag with
  | nil => simp [extractAux]
  | cons line rest ih =>
    rw [extractAux_cons, List.map_cons]
    by_cases h1 : isErrStep (processLine line) = true
    · rw [if_pos h1]
      exact List.Sublist.cons₂ _ (ih true)
    · rw [if_neg h1]
      by_cases h2 : hasPre stepTag (processLine line) = true
      · rw [if_pos h2]
        exact List.Sublist.cons _ (ih false)
      · rw [if_neg h2]
        by_cases h3 : (hasPre commentTag (processLine line) && flag) = true
        · rw [if_pos h3]
          exact List.Sublist.cons₂ _ (ih flag)
        · rw [if_neg h3]
          exact List.Sublist.cons _ (ih flag)

theorem extractAux_mem_of_err (ls : List PyStr) :
    ∀ (flag : Bool) (l : PyStr), l ∈ ls → isErrStep (processLine l) = true →
      processLine l ∈ extractAux ls flag := by
  induction ls with
  | nil => intro flag l hl _; simp at hl
  | cons line rest ih =>
    intro flag l hl herr
    rw [extractAux_cons]
    rcases List.mem_cons.mp hl with h | h
    · subst h
      rw [if_pos herr]
      exact List.mem_cons_self _ _
    · by_cases h1 : isErrStep (processLine line) = true
      · rw [if_pos h1]
        exact List.mem_cons_of_mem _ (ih true l h herr)
      · rw [if_neg h1]
        by_cases h2 : hasPre stepTag (processLine line) = true
        · rw [if_pos h2]; exact ih false l h herr
        · rw [if_neg h2]
          by_cases h3 : (hasPre commentTag (processLine line) && flag) = true
          · rw [if_pos h3]
            exact List.mem_cons_of_mem _ (ih flag l h herr)
          · rw [if_neg h3]; exact ih flag l h herr

theorem extractAux_eq_nil_of_no_err (ls : List PyStr)
    (h : ∀ l ∈ ls, isErrStep (processLine l) = false) :
    extractAux ls false = [] := by
  induction ls with
  | nil => rfl
  | cons line rest ih =>
    have hline := h line (List.mem_cons_self _ _)
    have hrest : ∀ l ∈ rest, isErrStep (processLine l) = false :=
      fun l hl => h l (List.mem_cons_of_mem _ hl)
    rw [extractAux_cons, if_neg (by simp [hline])]
    by_cases h2 : hasPre stepTag (processLine line) = true
    · rw [if_pos h2]; exact ih hrest
    · rw [if_neg h2, Bool.and_false, if_neg (by simp)]
      exact ih hrest

/-- C4 counterexample: on the text block "Step 1: x ❌" / "Comment: a"
/ "Comment: b" the post-processing retains both comment lines, so the
retained line "Comment: b" is a comment whose immediately preceding
retained line ("Comment: a") is a comment and not an incorrect-step
line — refuting the claim that a comment is retained only when the
immediately preceding retained line is an incorrect-step line. -/
theorem extract_comment_pairing_cx :
    resultLines (("Step 1: x ❌\nComment: a\nComment: b").toList) =
      [("Step 1: x ❌").toList, ("Comment: a").toList, ("Comment: b").toList] ∧
    hasPre commentTag (("Comment: b").toList) = true ∧
    hasPre commentTag (("Comment: a").toList) = true ∧
    isErrStep (("Comment: a").toList) = false := by
  decide

theorem errStep_hasPre_step {p : PyStr} (h : isErrStep p = true) :
    hasPre stepTag p = true := by
  have h2 : (hasPre stepTag p && hasSuf (("❌").toList) p) = true := h
  exact (Bool.and_eq_true _ _ ▸ h2).1

theorem step_comment_disjoint (p : PyStr) (h : hasPre stepTag p = true) :
    hasPre commentTag p = false := by
  cases p with
  | nil => exact absurd h (by decide)
  | cons c cs =>
    have h2 : ((('S' : Char) == c) &&
        hasPre (('t') :: ('e') :: ('p') :: (' ') :: []) cs) = true := h
    have h3 : c = 'S' := (beq_iff_eq.mp (Bool.and_eq_true _ _ ▸ h2).1).symm
    subst h3
    rfl

theorem lastStepWasError_append (prev : List PyStr) (p : PyStr) :
    lastStepWasError (prev ++ [p]) =
      if hasPre stepTag p then isErrStep p else lastStepWasError prev := by
  unfold lastStepWasError
  rw [List.reverse_append, show ([p] : List PyStr).reverse = [p] from rfl,
    List.singleton_append, List.find?_cons]
  by_cases hs : hasPre stepTag p = true
  · rw [if_pos hs, hs]
  · rw [if_neg hs]
    cases hx : hasPre stepTag p
    · rfl
    · exact absurd hx hs

theorem retainedPerSpec_cons (prev : List PyStr) (p : PyStr)
    (ps : List PyStr) :
    retainedPerSpec prev (p :: ps) =
      if keepPerSpec prev p then p :: retainedPerSpec (prev ++ [p]) ps
      else retainedPerSpec (prev ++ [p]) ps := rfl

theorem extractAux_eq_retainedPerSpec (ls : List PyStr) :
    ∀ (prev : List PyStr) (flag : Bool),
      flag = lastStepWasError prev →
      extractAux ls flag = retainedPerSpec prev (ls.map processLine) := by
  induction ls with
  | nil => intro prev flag _; rfl
  | cons line rest ih =>
    intro prev flag hflag
    rw [extractAux_cons, List.map_cons, retainedPerSpec_cons]
    by_cases h1 : isErrStep (processLine line) = true
    · rw [if_pos h1]
      rw [if_pos (show keepPerSpec prev (processLine line) = true by
        simp [keepPerSpec, h1])]
      congr 1
      apply ih
      rw [lastStepWasError_append, if_pos (errStep_hasPre_step h1), h1]
    · rw [if_neg h1]
      have h1f : isErrStep (processLine line) = false :=
        Bool.eq_false_iff.mpr h1
      by_cases h2 : hasPre stepTag (processLine line) = true
      · rw [if_pos h2]
        have hkeep : keepPerSpec prev (processLine line) = false := by
          simp [keepPerSpec, h1f, step_comment_disjoint _ h2]
        rw [if_neg (by simp [hkeep])]
        apply ih
        rw [lastStepWasError_append, if_pos h2, h1f]
      · rw [if_neg h2]
        by_cases h3 : (hasPre commentTag (processLine line) && flag) = true
        · rw [if_pos h3]
          have hkeep : keepPerSpec prev (processLine line) = true := by
            have hcm := (Bool.and_eq_true _ _ ▸ h3).1
            have hfl := (Bool.and_eq_true _ _ ▸ h3).2
            rw [hflag] at hfl
            simp [keepPerSpec, hcm, hfl]
          rw [if_pos hkeep]
          congr 1
          apply ih
          rw [lastStepWasError_append, if_neg h2]
          exact hflag
        · rw [if_neg h3]
          have hkeep : keepPerSpec prev (processLine line) = false := by
            have hcf : (hasPre commentTag (processLine line) &&
                lastStepWasError prev) = false := by
              rw [← hflag]
              exact Bool.eq_false_iff.mpr h3
            simp [keepPerSpec, h1f, hcf]
          rw [if_neg (by simp [hkeep])]
          apply ih
          rw [lastStepWasError_append, if_neg h2]
          exact hflag

/-- C4 (amended): the post-processing keeps, in original order,
exactly the incorrect-step lines and the comment lines whose most
recent preceding step line was an incorrect step: the retained list
equals the spec-side line-by-line filter `retainedPerSpec` (first
conjunct, the exact characterization).  Consequently every
incorrect-step line is retained, every retained line is an
incorrect-step line or a comment line, the first retained line (if
any) is an incorrect-step line, and retention preserves the original
order (sublist) — although, contrary to the original claim, several
consecutive comments may follow a single incorrect-step line, so a
retained comment's immediately preceding retained line may be another
comment. -/
theorem extract_retained_lines_structure (t : PyStr) :
    resultLines t =
      retainedPerSpec [] (((pyStrip t).splitOn '\n').map processLine) ∧
    (∀ r ∈ resultLines t, isErrStep r = true ∨ hasPre commentTag r = true) ∧
    (∀ r, (resultLines t).head? = some r → isErrStep r = true) ∧
    List.Sublist (resultLines t) (((pyStrip t).splitOn '\n').map processLine) ∧
    (∀ l ∈ (pyStrip t).splitOn '\n', isErrStep (processLine l) = true →
      processLine l ∈ resultLines t) := by
  refine ⟨?_, extractAux_mem_shape _ false, extractAux_head_err _, ?_, ?_⟩
  · exact extractAux_eq_retainedPerSpec _ [] false rfl
  · exact extractAux_sublist _ false
  · intro l hl herr
    exact extractAux_mem_of_err _ false l hl herr

/-- C4 witness: on a block with a correct step, an incorrect step and
a trailing comment, the first retained line is the incorrect step. -/
theorem extract_retained_lines_structure_witness :
    isErrStep (("Step 2: bad ❌").toList) = true :=
  (extract_retained_lines_structure
      (("Step 1: ok ✅\nStep 2: bad ❌\nComment: why").toList)).2.2.1
    _ (by decide)

-- Bullet handling (C10).

/-- A line with no leading/trailing whitespace and no leading bullet
marker: the processing of `extract_error_steps_and_comments` leaves it
unchanged. -/
def cleanLine (l : PyStr) : Prop :=
  l.dropWhile isPySpace = l ∧ l.reverse.dropWhile isPySpace = l.reverse ∧
    bulletStrip l = l

theorem dropWhile_head_false {p : Char → Bool} {l : PyStr}
    (h : l.dropWhile p = l) :
    ∀ c, l.head? = some c → p c = false := by
  intro c hc
  cases l with
  | nil => simp at hc
  | cons a t =>
    rw [List.head?_cons, Option.some.injEq] at hc
    subst hc
    cases hpa : p a with
    | false => rfl
    | true =>
      exfalso
      rw [List.dropWhile_cons, if_pos hpa] at h
      have h1 : (t.dropWhile p).length ≤ t.length :=
        (List.dropWhile_sublist p).length_le
      rw [h] at h1
      simp at h1

theorem cleanLine_pyStrip {l : PyStr} (h : cleanLine l) : pyStrip l = l := by
  rw [pyStrip, h.1, h.2.1, List.reverse_reverse]

theorem bulletStrip_cons (c : Char) (cs : PyStr) :
    bulletStrip (c :: cs) =
      if c = '*' ∨ c = '-' then cs.dropWhile isPySpace else c :: cs := rfl

theorem processLine_clean {l : PyStr} (h : cleanLine l) : processLine l = l := by
  rw [processLine, cleanLine_pyStrip h, h.2.2]

theorem processLine_bullet {l : PyStr} (b : Char) (hb : isPySpace b = false)
    (hbul : b = '*' ∨ b = '-') (h : cleanLine l) :
    processLine (b :: (' ') :: l) = l := by
  cases l with
  | nil =>
    have h1 : (b :: [' ']).dropWhile isPySpace = b :: [' '] := by
      rw [List.dropWhile_cons, if_neg (by simp [hb])]
    have h2 : ([' ', b]).dropWhile isPySpace = [b] := by
      rw [List.dropWhile_cons, if_pos (by decide),
        List.dropWhile_cons, if_neg (by simp [hb])]
    rw [processLine, pyStrip]
    rw [show (b :: (' ') :: ([] : PyStr)) = b :: [' '] from rfl, h1]
    rw [show (b :: [' ']).reverse = [' ', b] by rfl, h2]
    rw [show ([b] : PyStr).reverse = [b] from rfl]
    rw [bulletStrip_cons, if_pos hbul]
    rfl
  | cons a t =>
    have hX : (b :: (' ') :: a :: t).dropWhile isPySpace =
        b :: (' ') :: a :: t := by
      rw [List.dropWhile_cons, if_neg (by simp [hb])]
    obtain ⟨c, cs, hrev, hcp⟩ :
        ∃ c cs, (b :: (' ') :: a :: t).reverse = c :: cs ∧
          isPySpace c = false := by
      rcases hr : (a :: t).reverse with _ | ⟨c, cs⟩
      · exact absurd (congrArg List.length hr) (by simp)
      · refine ⟨c, cs ++ [' ', b], by simp [hr], ?_⟩
        exact dropWhile_head_false h.2.1 c (by rw [hr]; rfl)
    have hdrop2 : ((b :: (' ') :: a :: t).reverse).dropWhile isPySpace =
        (b :: (' ') :: a :: t).reverse := by
      rw [hrev, List.dropWhile_cons, if_neg (by simp [hcp])]
    rw [processLine, pyStrip, hX, hdrop2, List.reverse_reverse]
    rw [bulletStrip_cons, if_pos hbul, List.dropWhile_cons,
      if_pos (by decide), h.1]

/-- C10: before classifying a line, the post-processing strips
surrounding whitespace and one leading bullet marker followed by
whitespace, so a bulleted line is processed exactly like its
unbulleted form and retained without the bullet prefix (first and
second conjuncts, for both bullet markers); and when no incorrect-step
line occurs among the lines of the text, the result is the empty
string (third conjunct). -/
theorem bullet_stripping_and_empty_result :
    (∀ l : PyStr, cleanLine l →
      processLine (('-') :: (' ') :: l) = l ∧
      processLine (('*') :: (' ') :: l) = l ∧ processLine l = l) ∧
    (∀ (l : PyStr) (ls : List PyStr) (flag : Bool), cleanLine l →
      extractAux ((('-') :: (' ') :: l) :: ls) flag = extractAux (l :: ls) flag ∧
      extractAux ((('*') :: (' ') :: l) :: ls) flag = extractAux (l :: ls) flag) ∧
    (∀ t : PyStr, (∀ l ∈ (pyStrip t).splitOn '\n',
        isErrStep (processLine l) = false) →
      extract_error_steps_and_comments t = []) := by
  have hproc : ∀ l : PyStr, cleanLine l →
      processLine (('-') :: (' ') :: l) = l ∧
      processLine (('*') :: (' ') :: l) = l ∧ processLine l = l := by
    intro l hl
    exact ⟨processLine_bullet '-' (by decide) (Or.inr rfl) hl,
      processLine_bullet '*' (by decide) (Or.inl rfl) hl,
      processLine_clean hl⟩
  refine ⟨hproc, ?_, ?_⟩
  · intro l ls flag hl
    obtain ⟨hd, hs, hc⟩ := hproc l hl
    constructor
    · rw [extractAux_cons, extractAux_cons, hd, hc]
    · rw [extractAux_cons, extractAux_cons, hs, hc]
  · intro t ht
    have h0 : resultLines t = [] := extractAux_eq_nil_of_no_err _ ht
    simp [extract_error_steps_and_comments, h0]

/-- C10 witness: a block whose lines are a general comment and a
correct step yields the empty string. -/
theorem bullet_stripping_and_empty_result_witness :
    extract_error_steps_and_comments
      (("General comment\nStep 1: ok ✅").toList) = [] :=
  bullet_stripping_and_empty_result.2.2 _ (by decide)

-- Demo values used by the concrete witnesses below.

def demoEnv : Env :=
  { molParses := fun _ => true
    genai_service_available := false
    gateway := fun _ _ _ => [] }

/-- C7: when the current problem is already answered, submitting is a
no-op: the handler returns the session state completely unchanged (and
does not invoke the gateway); no error is raised. -/
theorem submit_when_answered_noop (env : Env) (s : SessionState)
    (h : s.is_current_problem_answered = true) :
    handle_answer_submission_st env s = (s, false) := by
  rw [handle_answer_submission_st, if_pos h]

/-- C7 witness: the no-op applied to an already-answered default
session state. -/
theorem submit_when_answered_noop_witness :
    handle_answer_submission_st demoEnv
      { initialize_session_state with is_current_problem_answered := true } =
      ({ initialize_session_state with is_current_problem_answered := true },
        false) :=
  submit_when_answered_noop demoEnv _ rfl

def demoProblemAlt : Problem :=
  { defaultProblem with
    smiles := ("CCO").toList
    name := ("ethanol").toList
    alternative_names := AltField.single (("ethyl alcohol").toList) }

def demoStateAlt : SessionState :=
  { initialize_session_state with
    app_stage := Stage.quiz
    quiz_problems_list := [demoProblemAlt]
    total_problems_in_quiz := 1 }

/-- C9: loading the current problem stores the wrapped
`alternative_names` field in the session; a single-string field wraps
to a one-element list, an absent field to the empty list, and answer
evaluation treats the wrapped single string exactly like a
one-element sequence. -/
theorem alternative_names_wrapping (env : Env) (s : SessionState)
    (spec : Problem) (a ans c : PyStr)
    (hidx : s.problem_index < s.total_problems_in_quiz)
    (hspec : s.quiz_problems_list[s.problem_index]? = some spec) :
    (load_current_problem_details env s).current_alternative_names =
      getAltNames spec.alternative_names ∧
    getAltNames (AltField.single a) = [a] ∧
    getAltNames AltField.absent = [] ∧
    evalCorrect ans c (getAltNames (AltField.single a)) =
      evalCorrect ans c (getAltNames (AltField.many [a])) := by
  refine ⟨?_, rfl, rfl, rfl⟩
  rw [load_current_problem_details, if_pos hidx, hspec]
  by_cases hm : env.molParses spec.smiles = true
  · simp only [hm, if_true]
  · simp only [hm, Bool.false_eq_true, if_false]

/-- C9 witness: the wrapping theorem applied to a session whose single
problem carries a single-string alternative name. -/
theorem alternative_names_wrapping_witness :
    (load_current_problem_details demoEnv demoStateAlt).current_alternative_names
        = getAltNames demoProblemAlt.alternative_names ∧
    getAltNames (AltField.single (("ethyl alcohol").toList)) =
      [("ethyl alcohol").toList] ∧
    getAltNames AltField.absent = [] ∧
    evalCorrect (("Ethyl Alcohol").toList) (("ethanol").toList)
        (getAltNames (AltField.single (("ethyl alcohol").toList))) =
      evalCorrect (("Ethyl Alcohol").toList) (("ethanol").toList)
        (getAltNames (AltField.many [("ethyl alcohol").toList])) :=
  alternative_names_wrapping demoEnv demoStateAlt demoProblemAlt
    (("ethyl alcohol").toList) (("Ethyl Alcohol").toList) (("ethanol").toList)
    (by decide) (by decide)

theorem joinWith_four (sep a b c x : PyStr) :
    joinWith sep [a, b, c, x] =
      a ++ sep ++ (b ++ sep ++ (c ++ sep ++ x)) := rfl

/-- C6: on an incorrect submission whose normalized form matches the
normalized key of a `common_errors` entry of the current problem, the
resulting feedback carries that entry's curated explanation (it is a
suffix of the feedback message), the external explanation gateway is
not invoked, and the generated-explanation field is set to the empty
string. -/
theorem common_error_precedence (env : Env) (s : SessionState)
    (entries : List CommonError) (e : CommonError)
    (hans : s.is_current_problem_answered = false)
    (hwrong : evalCorrect s.student_answer s.current_correct_name
        s.current_alternative_names = false)
    (hce : (s.quiz_problems_list.getD s.problem_index
        defaultProblem).common_errors = some entries)
    (hfind : entries.find?
        (fun x => pyNormalize x.incorrect_name == pyNormalize s.student_answer)
      = some e) :
    (handle_answer_submission_st env s).2 = false ∧
    (handle_answer_submission_st env s).1.ai_explanation = [] ∧
    List.IsSuffix e.explanation
      ((handle_answer_submission_st env s).1.feedback_message) := by
  have hcustom : findCommonError
      (s.quiz_problems_list.getD s.problem_index defaultProblem).common_errors
      (pyNormalize s.student_answer) = some e.explanation := by
    rw [hce, findCommonError, hfind]
  have hh : handle_answer_submission_st env s =
      ({ s with
          is_current_problem_answered := true
          disable_answer_input := true
          disable_formula_dropdown := true
          is_current_problem_correct := false
          feedback_message := joinWith (("<br>").toList)
            [incorrectHeader, yourAnswerPart s.student_answer,
              correctAnswersPart s.current_correct_name
                s.current_alternative_names,
              customExplanationPart e.explanation]
          ai_explanation := [] }, false) := by
    simp only [handle_answer_submission_st]
    rw [if_neg (by simp [hans]), if_neg (by simp [hwrong])]
    simp only [hcustom, Option.isNone_some, Bool.false_and,
      Bool.false_eq_true, if_false]
    rfl
  rw [hh]
  refine ⟨rfl, rfl, ?_⟩
  rw [joinWith_four, customExplanationPart]
  exact ⟨incorrectHeader ++ ("<br>").toList ++
    (yourAnswerPart s.student_answer ++ ("<br>").toList ++
      (correctAnswersPart s.current_correct_name s.current_alternative_names ++
        ("<br>").toList ++
        ("<hr><b>Explanation for your answer:</b><br>").toList)),
    by simp [List.append_assoc]⟩

def demoProblemCE : Problem :=
  { defaultProblem with
    smiles := ("CC(O)C").toList
    name := ("propan-2-ol").toList
    common_errors := some
      [{ incorrect_name := ("propan-2-nol").toList
         explanation := ("Check the suffix for an alcohol.").toList }] }

def demoStateCE : SessionState :=
  { initialize_session_state with
    app_stage := Stage.quiz
    quiz_problems_list := [demoProblemCE]
    total_problems_in_quiz := 1
    current_mol_smiles := some (("CC(O)C").toList)
    current_correct_name := ("propan-2-ol").toList
    student_answer := ("Propan-2-NOL").toList }

/-- C6 witness: the precedence theorem applied to a concrete wrong
answer listed among the problem's common errors. -/
theorem common_error_precedence_witness :
    (handle_answer_submission_st demoEnv demoStateCE).2 = false ∧
    (handle_answer_submission_st demoEnv demoStateCE).1.ai_explanation = [] ∧
    List.IsSuffix (("Check the suffix for an alcohol.").toList)
      ((handle_answer_submission_st demoEnv demoStateCE).1.feedback_message) :=
  common_error_precedence demoEnv demoStateCE
    [{ incorrect_name := ("propan-2-nol").toList
       explanation := ("Check the suffix for an alcohol.").toList }]
    { incorrect_name := ("propan-2-nol").toList
      explanation := ("Check the suffix for an alcohol.").toList }
    rfl (by decide) (by decide) (by decide)

-- Filtering semantics (C2) and sampling properties (C3).

theorem mem_filteredProblems (catalog : List Problem) (cats diffs : List PyStr)
    (p : Problem) :
    p ∈ filteredProblems catalog cats diffs ↔
      p ∈ catalog ∧ (cats ≠ [] → p.category ∈ cats) ∧
        (diffs ≠ [] → p.difficulty ∈ diffs) := by
  unfold filteredProblems
  by_cases hc : cats.isEmpty
  · have hc2 : cats = [] := List.isEmpty_iff.mp hc
    by_cases hd : diffs.isEmpty
    · have hd2 : diffs = [] := List.isEmpty_iff.mp hd
      simp [hc, hd, hc2, hd2]
    · have hd2 : diffs ≠ [] := fun h => hd (List.isEmpty_iff.mpr h)
      simp [hc, hd, hc2, hd2, List.mem_filter,
        List.contains_iff_exists_mem_beq, beq_iff_eq]
  · have hc2 : cats ≠ [] := fun h => hc (List.isEmpty_iff.mpr h)
    by_cases hd : diffs.isEmpty
    · have hd2 : diffs = [] := List.isEmpty_iff.mp hd
      simp [hc, hd, hc2, hd2, List.mem_filter,
        List.contains_iff_exists_mem_beq, beq_iff_eq]
    · have hd2 : diffs ≠ [] := fun h => hd (List.isEmpty_iff.mpr h)
      simp only [hc, hd, Bool.not_false, if_pos, List.mem_filter,
        List.contains_iff_exists_mem_beq, beq_iff_eq]
      constructor
      · rintro ⟨⟨hp, x, hx, hxe⟩, y, hy, hye⟩
        exact ⟨hp, fun _ => hxe ▸ hx, fun _ => hye ▸ hy⟩
      · rintro ⟨hp, h1, h2⟩
        exact ⟨⟨hp, p.category, h1 hc2, rfl⟩, p.difficulty, h2 hd2, rfl⟩

/-- C2: with both filter sets empty, the full catalog is eligible;
in general a record is eligible exactly when it satisfies the
category restriction (when selected) and the difficulty restriction
(when selected); and when at least one filter is selected and no
record is eligible, starting the quiz fails with `NoMatchingProblems`
and the entire session state is unchanged, in particular remaining in
the setup stage. -/
theorem setup_filter_semantics (env : Env) (catalog : List Problem)
    (oracle : List Nat) (s : SessionState) :
    (s.selected_categories = [] → s.selected_difficulties = [] →
      filteredProblems catalog s.selected_categories s.selected_difficulties =
        catalog) ∧
    (∀ p : Problem,
      p ∈ filteredProblems catalog s.selected_categories
          s.selected_difficulties ↔
        p ∈ catalog ∧
          (s.selected_categories ≠ [] →
            p.category ∈ s.selected_categories) ∧
          (s.selected_difficulties ≠ [] →
            p.difficulty ∈ s.selected_difficulties)) ∧
    ((s.selected_categories ≠ [] ∨ s.selected_difficulties ≠ []) →
      filteredProblems catalog s.selected_categories s.selected_difficulties
          = [] →
        setup_new_quiz_st env catalog oracle s =
          Except.error SetupError.NoMatchingProblems ∧
        runSetup env catalog oracle s = s ∧
        (s.app_stage = Stage.setup →
          (runSetup env catalog oracle s).app_stage = Stage.setup)) := by
  refine ⟨?_, fun p => mem_filteredProblems catalog _ _ p, ?_⟩
  · intro h1 h2
    simp [filteredProblems, h1, h2]
  · intro hne hempty
    have hcond : (!s.selected_categories.isEmpty ||
        !s.selected_difficulties.isEmpty) = true := by
      rcases hne with h | h <;> simp [h]
    have hsetup : setup_new_quiz_st env catalog oracle s =
        Except.error SetupError.NoMatchingProblems := by
      simp only [setup_new_quiz_st, hempty]
      rw [if_pos (by simp), if_pos hcond]
    refine ⟨hsetup, ?_, ?_⟩
    · rw [runSetup, hsetup]
    · intro h
      rw [runSetup, hsetup]
      exact h

def demoProblemA : Problem :=
  { defaultProblem with
    smiles := ("C").toList
    name := ("methane").toList
    category := ("Straight-chain Alkane").toList
    difficulty := ("Easy").toList }

def demoStateFilter : SessionState :=
  { initialize_session_state with
    selected_categories := [("Alkene").toList] }

/-- C2 witness: with the single selected category "Alkene" and a
catalog holding only an alkane, the start operation fails with
`NoMatchingProblems` and leaves the setup-stage state unchanged. -/
theorem setup_filter_semantics_witness :
    setup_new_quiz_st demoEnv [demoProblemA] [] demoStateFilter =
      Except.error SetupError.NoMatchingProblems ∧
    runSetup demoEnv [demoProblemA] [] demoStateFilter = demoStateFilter ∧
    (demoStateFilter.app_stage = Stage.setup →
      (runSetup demoEnv [demoProblemA] [] demoStateFilter).app_stage =
        Stage.setup) :=
  (setup_filter_semantics demoEnv [demoProblemA] [] demoStateFilter).2.2
    (Or.inl (by decide)) (by decide)

theorem perm_getD_cons_eraseIdx {α : Type} (l : List α) (i : Nat)
    (h : i < l.length) (d : α) :
    List.Perm l (l.getD i d :: l.eraseIdx i) := by
  induction l generalizing i with
  | nil => simp at h
  | cons a t ih =>
    cases i with
    | zero => simp
    | succ i =>
      have hi : i < t.length := by simpa using h
      have h1 : List.Perm (a :: t) (a :: (t.getD i d :: t.eraseIdx i)) :=
        List.Perm.cons a (ih i hi)
      have h2 : List.Perm (a :: (t.getD i d :: t.eraseIdx i))
          (t.getD i d :: (a :: t.eraseIdx i)) := List.Perm.swap _ _ _
      have h3 := h1.trans h2
      simpa using h3

theorem randomSample_length {α : Type} (k : Nat) :
    ∀ (pop : List α) (o : List Nat),
      (randomSample pop k o).length = min k pop.length := by
  induction k with
  | zero => intro pop o; simp [randomSample]
  | succ k ih =>
    intro pop o
    cases pop with
    | nil => simp [randomSample]
    | cons p ps =>
      have hi : (o.headD 0) % (p :: ps).length < (p :: ps).length :=
        Nat.mod_lt _ (by simp)
      have hlen := List.length_eraseIdx_add_one hi
      simp only [randomSample, List.length_cons]
      rw [ih]
      simp only [List.length_cons] at hlen ⊢
      omega

theorem randomSample_subperm {α : Type} (k : Nat) :
    ∀ (pop : List α) (o : List Nat),
      List.Subperm (randomSample pop k o) pop := by
  induction k with
  | zero => intro pop o; simp [randomSample]
  | succ k ih =>
    intro pop o
    cases pop with
    | nil => simp [randomSample]
    | cons p ps =>
      have hi : (o.headD 0) % (p :: ps).length < (p :: ps).length :=
        Nat.mod_lt _ (by simp)
      have hperm := perm_getD_cons_eraseIdx (p :: ps) _ hi p
      have hsub := ih ((p :: ps).eraseIdx ((o.headD 0) % (p :: ps).length))
        (o.drop 1)
      have hcons : List.Subperm
          ((p :: ps).getD ((o.headD 0) % (p :: ps).length) p ::
            randomSample ((p :: ps).eraseIdx ((o.headD 0) % (p :: ps).length))
              k (o.drop 1))
          ((p :: ps).getD ((o.headD 0) % (p :: ps).length) p ::
            (p :: ps).eraseIdx ((o.headD 0) % (p :: ps).length)) :=
        (List.subperm_cons _).mpr hsub
      exact hcons.trans hperm.symm.subperm

theorem randomSample_nodup {α : Type} (k : Nat) (pop : List α) (o : List Nat)
    (h : pop.Nodup) : (randomSample pop k o).Nodup := by
  obtain ⟨l, hperm, hsub⟩ := randomSample_subperm k pop o
  exact hperm.nodup (hsub.nodup h)

theorem load_preserves (env : Env) (s : SessionState) :
    (load_current_problem_details env s).quiz_problems_list =
        s.quiz_problems_list ∧
    (load_current_problem_details env s).problem_index = s.problem_index ∧
    (load_current_problem_details env s).total_problems_in_quiz =
        s.total_problems_in_quiz ∧
    (load_current_problem_details env s).current_score = s.current_score ∧
    (load_current_problem_details env s).app_stage = s.app_stage := by
  unfold load_current_problem_details
  repeat' split
  all_goals exact ⟨rfl, rfl, rfl, rfl, rfl⟩

/-- C3: whenever starting a quiz succeeds, the session's problem list
has length `min R N` where `R` is the requested count and `N` the
number of eligible filtered problems (so a request exceeding `N` is
silently clamped to `N`), the list is drawn from the eligible records
without replacement (it is a sub-permutation of the filtered list, so
it has no duplicates whenever the filtered records are distinct and
each of its elements is an eligible record), and the problem index and
score are reset to 0. -/
theorem setup_sampling_properties (env : Env) (catalog : List Problem)
    (oracle : List Nat) (s s1 : SessionState)
    (hok : setup_new_quiz_st env catalog oracle s = Except.ok s1) :
    s1.quiz_problems_list.length =
      min s.num_problems_requested
        (filteredProblems catalog s.selected_categories
          s.selected_difficulties).length ∧
    List.Subperm s1.quiz_problems_list
      (filteredProblems catalog s.selected_categories
        s.selected_difficulties) ∧
    ((filteredProblems catalog s.selected_categories
        s.selected_difficulties).Nodup → s1.quiz_problems_list.Nodup) ∧
    (∀ p ∈ s1.quiz_problems_list,
      p ∈ filteredProblems catalog s.selected_categories
        s.selected_difficulties) ∧
    s1.problem_index = 0 ∧ s1.current_score = 0 ∧
    ((filteredProblems catalog s.selected_categories
        s.selected_difficulties).length < s.num_problems_requested →
      s1.quiz_problems_list.length =
        (filteredProblems catalog s.selected_categories
          s.selected_difficulties).length) := by
  unfold setup_new_quiz_st at hok
  by_cases hemp : (filteredProblems catalog s.selected_categories
      s.selected_difficulties).isEmpty
  · rw [if_pos hemp] at hok
    by_cases hcond : (!s.selected_categories.isEmpty ||
        !s.selected_difficulties.isEmpty) = true
    · rw [if_pos hcond] at hok
      exact absurd hok (by simp)
    · rw [if_neg hcond] at hok
      have hc : s.selected_categories.isEmpty = true := by
        cases hx : s.selected_categories.isEmpty
        · exfalso; apply hcond; simp [hx]
        · rfl
      have hd : s.selected_difficulties.isEmpty = true := by
        cases hx : s.selected_difficulties.isEmpty
        · exfalso; apply hcond; simp [hx]
        · rfl
      have hcat : filteredProblems catalog s.selected_categories
          s.selected_difficulties = catalog := by
        simp [filteredProblems, hc, hd]
      rw [hcat] at hemp
      rw [setupFrom, if_pos hemp] at hok
      exact absurd hok (by simp)
  · rw [if_neg hemp] at hok
    rw [setupFrom, if_neg hemp] at hok
    by_cases hact : min s.num_problems_requested
        (filteredProblems catalog s.selected_categories
          s.selected_difficulties).length = 0
    · rw [if_pos hact] at hok
      exact absurd hok (by simp)
    · rw [if_neg hact] at hok
      rw [Except.ok.injEq] at hok
      obtain ⟨hl, hi, ht, hsc, hst⟩ := load_preserves env
        { s with
          quiz_problems_list := randomSample
            (filteredProblems catalog s.selected_categories
              s.selected_difficulties)
            (min s.num_problems_requested
              (filteredProblems catalog s.selected_categories
                s.selected_difficulties).length) oracle
          total_problems_in_quiz := min s.num_problems_requested
            (filteredProblems catalog s.selected_categories
              s.selected_difficulties).length
          problem_index := 0
          current_score := 0
          app_stage := Stage.quiz
          student_answer := []
          is_current_problem_answered := false
          is_current_problem_correct := false
          feedback_message := []
          ai_explanation := []
          disable_answer_input := false
          disable_formula_dropdown := false }
      rw [hok] at hl hi ht hsc hst
      have hlist : s1.quiz_problems_list = randomSample
          (filteredProblems catalog s.selected_categories
            s.selected_difficulties)
          (min s.num_problems_requested
            (filteredProblems catalog s.selected_categories
              s.selected_difficulties).length) oracle := hl
      have hlen := randomSample_length
        (min s.num_problems_requested
          (filteredProblems catalog s.selected_categories
            s.selected_difficulties).length)
        (filteredProblems catalog s.selected_categories
          s.selected_difficulties) oracle
      have hsub := randomSample_subperm
        (min s.num_problems_requested
          (filteredProblems catalog s.selected_categories
            s.selected_difficulties).length)
        (filteredProblems catalog s.selected_categories
          s.selected_difficulties) oracle
      rw [← hlist] at hlen hsub
      refine ⟨?_, hsub, ?_, ?_, hi, hsc, ?_⟩
      · rw [hlen]; omega
      · intro hnd
        rw [hlist]
        exact randomSample_nodup _ _ _ hnd
      · intro p hp
        exact hsub.subset hp
      · intro hlt
        rw [hlen]; omega

-- Score invariant machinery (C5).

theorem handle_effects (env : Env) (s : SessionState) :
    (handle_answer_submission_st env s).1.quiz_problems_list =
        s.quiz_problems_list ∧
    (handle_answer_submission_st env s).1.total_problems_in_quiz =
        s.total_problems_in_quiz ∧
    (handle_answer_submission_st env s).1.problem_index = s.problem_index ∧
    (handle_answer_submission_st env s).1.app_stage = s.app_stage ∧
    s.current_score ≤ (handle_answer_submission_st env s).1.current_score ∧
    (handle_answer_submission_st env s).1.current_score ≤
        s.current_score + 1 ∧
    (s.is_current_problem_answered = false →
      (handle_answer_submission_st env s).1.is_current_problem_answered =
        true) ∧
    (s.is_current_problem_answered = true →
      (handle_answer_submission_st env s).1 = s) := by
  simp only [handle_answer_submission_st]
  split
  · next h =>
    exact ⟨rfl, rfl, rfl, rfl, Nat.le_refl _, Nat.le_succ _,
      fun h2 => absurd h (by simp [h2]), fun _ => rfl⟩
  · next h =>
    split
    · exact ⟨rfl, rfl, rfl, rfl, Nat.le_succ _, Nat.le_refl _,
        fun _ => rfl, fun h2 => absurd h2 h⟩
    · split
      · exact ⟨rfl, rfl, rfl, rfl, Nat.le_refl _, Nat.le_succ _,
          fun _ => rfl, fun h2 => absurd h2 h⟩
      · exact ⟨rfl, rfl, rfl, rfl, Nat.le_refl _, Nat.le_succ _,
          fun _ => rfl, fun h2 => absurd h2 h⟩

theorem advance_effects (env : Env) (s : SessionState) :
    (go_to_next_problem_callback env s).quiz_problems_list =
        s.quiz_problems_list ∧
    (go_to_next_problem_callback env s).total_problems_in_quiz =
        s.total_problems_in_quiz ∧
    (go_to_next_problem_callback env s).problem_index =
        s.problem_index + 1 ∧
    (go_to_next_problem_callback env s).current_score = s.current_score ∧
    (s.problem_index + 1 ≥ s.total_problems_in_quiz →
      (go_to_next_problem_callback env s).app_stage = Stage.results) ∧
    (s.problem_index + 1 < s.total_problems_in_quiz →
      (go_to_next_problem_callback env s).app_stage = s.app_stage) := by
  simp only [go_to_next_problem_callback]
  split
  · next h =>
    exact ⟨rfl, rfl, rfl, rfl, fun _ => rfl, fun h2 => absurd h (by omega)⟩
  · next h =>
    obtain ⟨hl, hi, ht, hsc, hst⟩ := load_preserves env
      { s with
        problem_index := s.problem_index + 1
        student_answer := []
        is_current_problem_answered := false
        is_current_problem_correct := false
        feedback_message := []
        ai_explanation := []
        disable_answer_input := false
        disable_formula_dropdown := false }
    exact ⟨hl, ht, hi, hsc, fun h2 => absurd h2 (by simpa using h), fun _ => hst⟩

theorem step_score_mono (env : Env) (s : SessionState) (op : Op) :
    s.current_score ≤ (step env s op).current_score := by
  cases op with
  | submit a =>
    simp only [step]
    split
    · split
      · next h1 =>
        split
        · next h2 =>
          have he := handle_effects env { s with student_answer := a }
          exact he.2.2.2.2.1
        · exact Nat.le_refl _
      · split
        · next h2 =>
          have he := handle_effects env s
          exact he.2.2.2.2.1
        · exact Nat.le_refl _
    · exact Nat.le_refl _
  | advance =>
    simp only [step]
    split
    · exact Nat.le_of_eq (advance_effects env s).2.2.2.1.symm
    · exact Nat.le_refl _

/-- The inductive invariant carried along any interaction sequence:
the recorded total equals the length of the problem list, the score is
bounded by the index (plus one when the current problem is answered),
during the quiz the index stays below the total, and outside the quiz
the score is bounded by the total. -/
def ScoreInv (s : SessionState) : Prop :=
  s.total_problems_in_quiz = s.quiz_problems_list.length ∧
  s.current_score ≤ s.problem_index +
    (if s.is_current_problem_answered = true then 1 else 0) ∧
  (s.app_stage = Stage.quiz → s.problem_index < s.total_problems_in_quiz) ∧
  (s.app_stage ≠ Stage.quiz → s.current_score ≤ s.total_problems_in_quiz)

theorem handle_preserves_inv (env : Env) (s : SessionState)
    (hq : s.app_stage = Stage.quiz)
    (hans : s.is_current_problem_answered = false)
    (h : ScoreInv s) : ScoreInv (handle_answer_submission_st env s).1 := by
  obtain ⟨h1, h2, h3, h4⟩ := h
  obtain ⟨el, et, ei, es, elo, ehi, eans, _⟩ := handle_effects env s
  rw [hans] at h2
  have hz : (if (false : Bool) = true then (1 : Nat) else 0) = 0 := rfl
  have ho : (if (true : Bool) = true then (1 : Nat) else 0) = 1 := rfl
  rw [hz] at h2
  refine ⟨?_, ?_, ?_, ?_⟩
  · rw [et, el, h1]
  · rw [eans hans, ei, ho]
    omega
  · intro hq2
    rw [ei, et]
    exact h3 hq
  · intro hne
    rw [es, hq] at hne
    exact absurd rfl hne

theorem step_preserves_inv (env : Env) (s : SessionState) (op : Op)
    (h : ScoreInv s) : ScoreInv (step env s op) := by
  cases op with
  | submit a =>
    simp only [step]
    split
    · next hq =>
      split
      · next hen =>
        split
        · next hsub =>
          exact handle_preserves_inv env { s with student_answer := a }
            hq hsub.1 h
        · exact h
      · split
        · next hsub =>
          exact handle_preserves_inv env s hq hsub.1 h
        · exact h
    · exact h
  | advance =>
    simp only [step]
    split
    · next hcond =>
      obtain ⟨hq, hans⟩ := hcond
      obtain ⟨h1, h2, h3, h4⟩ := h
      obtain ⟨el, et, ei, es, estage_ge, estage_lt⟩ := advance_effects env s
      have ho : (if (true : Bool) = true then (1 : Nat) else 0) = 1 := rfl
      rw [hans, ho] at h2
      have hidx : s.problem_index < s.total_problems_in_quiz := h3 hq
      refine ⟨?_, ?_, ?_, ?_⟩
      · rw [et, el, h1]
      · rw [es, ei]
        have hnn : (0 : Nat) ≤ (if (go_to_next_problem_callback env
            s).is_current_problem_answered = true then 1 else 0) := by
          split <;> omega
        omega
      · intro hq2
        rw [ei, et]
        by_cases hge : s.problem_index + 1 ≥ s.total_problems_in_quiz
        · rw [estage_ge hge] at hq2
          exact absurd hq2 (by decide)
        · omega
      · intro hne
        rw [es, et]
        by_cases hge : s.problem_index + 1 ≥ s.total_problems_in_quiz
        · omega
        · rw [estage_lt (by omega), hq] at hne
          exact absurd rfl hne
    · exact h

theorem setup_ok_dest (env : Env) (catalog : List Problem)
    (oracle : List Nat) (s s1 : SessionState)
    (hok : setup_new_quiz_st env catalog oracle s = Except.ok s1) :
    s1.total_problems_in_quiz = s1.quiz_problems_list.length ∧
    s1.current_score = 0 ∧ s1.problem_index = 0 ∧
    s1.app_stage = Stage.quiz ∧ 0 < s1.total_problems_in_quiz := by
  unfold setup_new_quiz_st at hok
  by_cases hemp : (filteredProblems catalog s.selected_categories
      s.selected_difficulties).isEmpty
  · rw [if_pos hemp] at hok
    by_cases hcond : (!s.selected_categories.isEmpty ||
        !s.selected_difficulties.isEmpty) = true
    · rw [if_pos hcond] at hok
      exact absurd hok (by simp)
    · rw [if_neg hcond] at hok
      have hc : s.selected_categories.isEmpty = true := by
        cases hx : s.selected_categories.isEmpty
        · exfalso; apply hcond; simp [hx]
        · rfl
      have hd : s.selected_difficulties.isEmpty = true := by
        cases hx : s.selected_difficulties.isEmpty
        · exfalso; apply hcond; simp [hx]
        · rfl
      have hcat : filteredProblems catalog s.selected_categories
          s.selected_difficulties = catalog := by
        simp [filteredProblems, hc, hd]
      rw [hcat] at hemp
      rw [setupFrom, if_pos hemp] at hok
      exact absurd hok (by simp)
  · rw [if_neg hemp] at hok
    rw [setupFrom, if_neg hemp] at hok
    by_cases hact : min s.num_problems_requested
        (filteredProblems catalog s.selected_categories
          s.selected_difficulties).length = 0
    · rw [if_pos hact] at hok
      exact absurd hok (by simp)
    · rw [if_neg hact] at hok
      rw [Except.ok.injEq] at hok
      obtain ⟨hl, hi, ht, hsc, hst⟩ := load_preserves env
        { s with
          quiz_problems_list := randomSample
            (filteredProblems catalog s.selected_categories
              s.selected_difficulties)
            (min s.num_problems_requested
              (filteredProblems catalog s.selected_categories
                s.selected_difficulties).length) oracle
          total_problems_in_quiz := min s.num_problems_requested
            (filteredProblems catalog s.selected_categories
              s.selected_difficulties).length
          problem_index := 0
          current_score := 0
          app_stage := Stage.quiz
          student_answer := []
          is_current_problem_answered := false
          is_current_problem_correct := false
          feedback_message := []
          ai_explanation := []
          disable_answer_input := false
          disable_formula_dropdown := false }
      rw [hok] at hl hi ht hsc hst
      have hlen := randomSample_length
        (min s.num_problems_requested
          (filteredProblems catalog s.selected_categories
            s.selected_difficulties).length)
        (filteredProblems catalog s.selected_categories
          s.selected_difficulties) oracle
      refine ⟨?_, hsc, hi, hst, ?_⟩
      · rw [ht, hl, hlen]
        dsimp only
        omega
      · rw [ht]
        dsimp only
        omega

theorem runOps_inv (env : Env) (ops : List Op) :
    ∀ s : SessionState, ScoreInv s → ScoreInv (runOps env s ops) := by
  induction ops with
  | nil => intro s h; exact h
  | cons op rest ih =>
    intro s h
    exact ih (step env s op) (step_preserves_inv env s op h)

theorem runOps_take_succ (env : Env) (s : SessionState) (ops : List Op)
    (i : Nat) :
    runOps env s (ops.take (i + 1)) =
      (match ops[i]? with
        | some op => step env (runOps env s (ops.take i)) op
        | none => runOps env s (ops.take i)) := by
  rw [runOps, List.take_succ, List.foldl_append]
  cases h : ops[i]? with
  | some op => rfl
  | none => rfl

/-- C5: for every session created by a successful quiz start and every
sequence of submit/advance interactions, at every point of the
sequence the score is at most the length of the session's problem list
(and, being a natural number, at least 0), and no single interaction
ever decreases the score. -/
theorem score_bounded_and_monotone (env : Env) (catalog : List Problem)
    (oracle : List Nat) (s s1 : SessionState)
    (hok : setup_new_quiz_st env catalog oracle s = Except.ok s1)
    (ops : List Op) (i : Nat) :
    (runOps env s1 (ops.take i)).current_score ≤
      (runOps env s1 (ops.take i)).quiz_problems_list.length ∧
    (runOps env s1 (ops.take i)).current_score ≤
      (runOps env s1 (ops.take (i + 1))).current_score := by
  have hd := setup_ok_dest env catalog oracle s s1 hok
  have hinv0 : ScoreInv s1 := by
    obtain ⟨ha, hb, hc2, hdq, hpos⟩ := hd
    refine ⟨ha, ?_, ?_, ?_⟩
    · rw [hb]; exact Nat.zero_le _
    · intro _; omega
    · intro hne; exact absurd hdq hne
  have hinv := runOps_inv env (ops.take i) s1 hinv0
  obtain ⟨h1, h2, h3, h4⟩ := hinv
  constructor
  · have hite : (if (runOps env s1 (ops.take i)).is_current_problem_answered
        = true then 1 else 0) ≤ 1 := by split <;> omega
    by_cases hq : (runOps env s1 (ops.take i)).app_stage = Stage.quiz
    · have := h3 hq
      omega
    · have := h4 hq
      omega
  · rw [runOps_take_succ]
    cases h : ops[i]? with
    | some op => exact step_score_mono env _ op
    | none => exact Nat.le_refl _

def demoProblemB : Problem :=
  { defaultProblem with
    smiles := ("CC").toList
    name := ("ethane").toList
    category := ("Straight-chain Alkane").toList
    difficulty := ("Easy").toList }

def demoCatalog : List Problem := [demoProblemA, demoProblemB]

def demoQuizState : SessionState :=
  runSetup demoEnv demoCatalog [] initialize_session_state

/-- C3 witness: starting a quiz on a two-problem catalog with no
filters and the default request of five problems succeeds; the
sampling theorem instantiated there. -/
theorem setup_sampling_properties_witness :
    demoQuizState.quiz_problems_list.length =
      min initialize_session_state.num_problems_requested
        (filteredProblems demoCatalog
          initialize_session_state.selected_categories
          initialize_session_state.selected_difficulties).length ∧
    List.Subperm demoQuizState.quiz_problems_list
      (filteredProblems demoCatalog
        initialize_session_state.selected_categories
        initialize_session_state.selected_difficulties) ∧
    ((filteredProblems demoCatalog
        initialize_session_state.selected_categories
        initialize_session_state.selected_difficulties).Nodup →
      demoQuizState.quiz_problems_list.Nodup) ∧
    (∀ p ∈ demoQuizState.quiz_problems_list,
      p ∈ filteredProblems demoCatalog
        initialize_session_state.selected_categories
        initialize_session_state.selected_difficulties) ∧
    demoQuizState.problem_index = 0 ∧ demoQuizState.current_score = 0 ∧
    ((filteredProblems demoCatalog
        initialize_session_state.selected_categories
        initialize_session_state.selected_difficulties).length <
        initialize_session_state.num_problems_requested →
      demoQuizState.quiz_problems_list.length =
        (filteredProblems demoCatalog
          initialize_session_state.selected_categories
          initialize_session_state.selected_difficulties).length) :=
  setup_sampling_properties demoEnv demoCatalog [] initialize_session_state
    demoQuizState rfl

/-- C5 witness: the score bound and monotonicity instantiated on the
demo session after one submitted answer, with one further advance
interaction pending. -/
theorem score_bounded_and_monotone_witness :
    (runOps demoEnv demoQuizState
        (([Op.submit (("methane").toList), Op.advance]).take 1)).current_score ≤
      (runOps demoEnv demoQuizState
        (([Op.submit (("methane").toList),
          Op.advance]).take 1)).quiz_problems_list.length ∧
    (runOps demoEnv demoQuizState
        (([Op.submit (("methane").toList), Op.advance]).take 1)).current_score ≤
      (runOps demoEnv demoQuizState
        (([Op.submit (("methane").toList), Op.advance]).take 2)).current_score :=
  score_bounded_and_monotone demoEnv demoCatalog [] initialize_session_state
    demoQuizState rfl [Op.submit (("methane").toList), Op.advance] 1

end Quiz
